import Mathlib

/-!
Shallow embedding of the OpenFST runtime-core fragment:
`src/lib/fst.cc` (`FstHeader::Read`, `FstHeader::Write`,
`FstReadOptions::ReadMode`) and the two CLI tool `main` functions
(`fstconvert.cc`, `fsttopsort.cc`).

The byte-level field codecs (`ReadType` / `WriteType`, declared in headers
that are not part of the shown sources) are modelled from the spec's binary
layout: fixed-width platform-independent integers and length-prefixed
strings.  Stream state follows C++ iostream semantics: a failed stream
ignores further reads and seeks, and `tellg` on it yields -1.
-/

namespace OpenFst

/-- Modelled from the spec: little-endian byte encoding of an unsigned
integer over `w` bytes ("fixed-width, platform-independent encoding",
spec section 6).  The repository's `WriteType` primitives live in headers
absent from the shown sources. -/
def natToBytesLE : Nat → Nat → List Nat
  | 0, _ => []
  | w + 1, n => n % 256 :: natToBytesLE w (n / 256)

/-- Modelled from the spec: little-endian decoding, inverse of
`natToBytesLE` on values that fit the width. -/
def bytesToNatLE : List Nat → Nat
  | [] => 0
  | b :: bs => b + 256 * bytesToNatLE bs

/-- Modelled from the spec: two's-complement encoding of a signed integer
over `w` bytes. -/
def intToBytesLE (w : Nat) (i : Int) : List Nat :=
  natToBytesLE w (i % (2 ^ (8 * w))).toNat

/-- Modelled from the spec: two's-complement decoding over `w` bytes. -/
def bytesToIntLE (w : Nat) (bs : List Nat) : Int :=
  if bytesToNatLE bs < 2 ^ (8 * w - 1) then (bytesToNatLE bs : Int)
  else (bytesToNatLE bs : Int) - 2 ^ (8 * w)

theorem length_natToBytesLE (w n : Nat) : (natToBytesLE w n).length = w := by
  induction w generalizing n with
  | zero => rfl
  | succ w ih => simp [natToBytesLE, ih]

theorem length_intToBytesLE (w : Nat) (i : Int) :
    (intToBytesLE w i).length = w := by
  simp [intToBytesLE, length_natToBytesLE]

theorem bytesToNatLE_natToBytesLE (w n : Nat) :
    bytesToNatLE (natToBytesLE w n) = n % 2 ^ (8 * w) := by
  induction w generalizing n with
  | zero => simp [natToBytesLE, bytesToNatLE, Nat.mod_one]
  | succ w ih =>
      have hpow : 2 ^ (8 * (w + 1)) = 256 * 2 ^ (8 * w) := by
        rw [Nat.mul_add, pow_add]; ring
      rw [natToBytesLE, bytesToNatLE, ih, hpow, Nat.mod_mul]

theorem bytesToIntLE_intToBytesLE (w : Nat) (hw : 1 ≤ w) (i : Int)
    (h1 : -(2 ^ (8 * w - 1)) ≤ i) (h2 : i < 2 ^ (8 * w - 1)) :
    bytesToIntLE w (intToBytesLE w i) = i := by
  have hsplit : 8 * w - 1 + 1 = 8 * w := by omega
  have hM : (2 : Int) ^ (8 * w) = 2 * 2 ^ (8 * w - 1) := by
    have hp := pow_succ (2 : Int) (8 * w - 1)
    rw [hsplit] at hp
    linarith
  have hMpos : (0 : Int) < 2 ^ (8 * w) := by positivity
  have hcastH : ((2 ^ (8 * w - 1) : Nat) : Int) = 2 ^ (8 * w - 1) := by
    push_cast; ring
  have hcastM : ((2 ^ (8 * w) : Nat) : Int) = 2 ^ (8 * w) := by
    push_cast; ring
  have he0 : (0 : Int) ≤ i % 2 ^ (8 * w) := Int.emod_nonneg i (by positivity)
  have he1 : i % 2 ^ (8 * w) < 2 ^ (8 * w) := Int.emod_lt_of_pos i hMpos
  rw [bytesToIntLE, intToBytesLE, bytesToNatLE_natToBytesLE]
  have hmod : (i % 2 ^ (8 * w)).toNat % 2 ^ (8 * w) = (i % 2 ^ (8 * w)).toNat :=
    Nat.mod_eq_of_lt (by omega)
  rw [hmod]
  rcases le_or_lt 0 i with hpos | hneg
  · have hiv : i % 2 ^ (8 * w) = i := Int.emod_eq_of_lt hpos (by omega)
    rw [hiv]
    have hlt : i.toNat < 2 ^ (8 * w - 1) := by omega
    rw [if_pos hlt]
    omega
  · have hiv : i % 2 ^ (8 * w) = i + 2 ^ (8 * w) := by
      have h1' := Int.add_mul_emod_self_left i (2 ^ (8 * w)) 1
      rw [mul_one] at h1'
      have h2' : (i + 2 ^ (8 * w)) % 2 ^ (8 * w) = i + 2 ^ (8 * w) :=
        Int.emod_eq_of_lt (by omega) (by omega)
      omega
    rw [hiv]
    have hge : ¬ ((i + 2 ^ (8 * w)).toNat < 2 ^ (8 * w - 1)) := by omega
    rw [if_neg hge]
    omega

/-- Input stream state: underlying bytes, get position, fail flag.
Mirrors C++ `std::istream` semantics as used by `FstHeader::Read`. -/
structure IStream where
  data : List Nat
  pos : Nat
  fail : Bool
deriving DecidableEq, Repr

/-- Read `n` bytes.  A failed stream does nothing; a read past the end
consumes the rest and sets the fail state (C++ `istream::read`). -/
def readBytes (n : Nat) (s : IStream) : Option (List Nat) × IStream :=
  if s.fail then (none, s)
  else if s.pos + n ≤ s.data.length then
    (some ((s.data.drop s.pos).take n), { s with pos := s.pos + n })
  else (none, { s with pos := s.data.length, fail := true })

/-- C++ `tellg`: -1 on a failed stream. -/
def tellg (s : IStream) : Int :=
  if s.fail then -1 else s.pos

/-- C++ `seekg`: no effect on a failed stream (the sentry fails). -/
def seekg (p : Int) (s : IStream) : IStream :=
  if s.fail then s
  else if p < 0 then { s with fail := true }
  else { s with pos := p.toNat }

/-- `ReadType` for `int32`: on failure the target keeps `dflt`
(the caller's previous value). -/
def readTypeInt32 (dflt : Int) (s : IStream) : Int × IStream :=
  match readBytes 4 s with
  | (some bs, s') => (bytesToIntLE 4 bs, s')
  | (none, s') => (dflt, s')

/-- `ReadType` for `int64`. -/
def readTypeInt64 (dflt : Int) (s : IStream) : Int × IStream :=
  match readBytes 8 s with
  | (some bs, s') => (bytesToIntLE 8 bs, s')
  | (none, s') => (dflt, s')

/-- `ReadType` for `uint64`. -/
def readTypeUInt64 (dflt : Nat) (s : IStream) : Nat × IStream :=
  match readBytes 8 s with
  | (some bs, s') => (bytesToNatLE bs, s')
  | (none, s') => (dflt, s')

/-- Modelled from the spec: `ReadType` for a length-prefixed string
(spec section 6); the string's bytes follow an `int32` length. -/
def readTypeString (dflt : List Nat) (s : IStream) : List Nat × IStream :=
  let r := readTypeInt32 0 s
  if r.2.fail then (dflt, r.2)
  else if r.1 < 0 then (dflt, { r.2 with fail := true })
  else
    match readBytes r.1.toNat r.2 with
    | (some bs, s') => (bs, s')
    | (none, s') => (dflt, s')

/-- Output stream state: accumulated bytes plus fail flag
(C++ `std::ostream`); writes on a failed stream are dropped. -/
structure OStream where
  data : List Nat
  fail : Bool
deriving DecidableEq, Repr

def writeBytes (bs : List Nat) (s : OStream) : OStream :=
  if s.fail then s else { s with data := s.data ++ bs }

def writeTypeInt32 (i : Int) (s : OStream) : OStream :=
  writeBytes (intToBytesLE 4 i) s

def writeTypeInt64 (i : Int) (s : OStream) : OStream :=
  writeBytes (intToBytesLE 8 i) s

def writeTypeUInt64 (n : Nat) (s : OStream) : OStream :=
  writeBytes (natToBytesLE 8 n) s

/-- Modelled from the spec: `WriteType` for a length-prefixed string. -/
def writeTypeString (bs : List Nat) (s : OStream) : OStream :=
  writeBytes (intToBytesLE 4 (bs.length : Int) ++ bs) s

/-- Modelled from the spec: the fixed sentinel magic number (an `int32`
constant declared in `fst/fst.h`, outside the shown sources).  No claim
depends on its numeric value, only on it being a fixed sentinel. -/
def kFstMagicNumber : Int := 2125659606

/-- The header record of `FstHeader` (fst.cc): `fsttype_`, `arctype_`
(strings, modelled as byte lists), `version_`, `flags_` (`int32`),
`properties_` (`uint64`), `start_`, `numstates_`, `numarcs_` (`int64`). -/
structure FstHeader where
  fsttype : List Nat
  arctype : List Nat
  version : Int
  flags : Int
  properties : Nat
  start : Int
  numstates : Int
  numarcs : Int
deriving DecidableEq, Repr

/-- `FstHeader::Read` (fst.cc lines 58-84).  `h` holds the fields'
values before the call (`Read` is a mutating member function); the result
is the returned `bool`, the fields after the call, and the stream. -/
def FstHeader.Read (h : FstHeader) (strm : IStream) (rewind : Bool) :
    Bool × FstHeader × IStream :=
  let pos : Int := if rewind then tellg strm else 0
  let rm := readTypeInt32 0 strm
  if rm.1 ≠ kFstMagicNumber then
    (false, h, if rewind then seekg pos rm.2 else rm.2)
  else
    let r1 := readTypeString h.fsttype rm.2
    let r2 := readTypeString h.arctype r1.2
    let r3 := readTypeInt32 h.version r2.2
    let r4 := readTypeInt32 h.flags r3.2
    let r5 := readTypeUInt64 h.properties r4.2
    let r6 := readTypeInt64 h.start r5.2
    let r7 := readTypeInt64 h.numstates r6.2
    let r8 := readTypeInt64 h.numarcs r7.2
    let h' : FstHeader := ⟨r1.1, r2.1, r3.1, r4.1, r5.1, r6.1, r7.1, r8.1⟩
    if r8.2.fail then (false, h', r8.2)
    else (true, h', if rewind then seekg pos r8.2 else r8.2)

/-- `FstHeader::Write` (fst.cc lines 87-98): writes the magic number and
the eight fields in fixed order and returns `true` unconditionally. -/
def FstHeader.Write (h : FstHeader) (strm : OStream) : Bool × OStream :=
  let s1 := writeTypeInt32 kFstMagicNumber strm
  let s2 := writeTypeString h.fsttype s1
  let s3 := writeTypeString h.arctype s2
  let s4 := writeTypeInt32 h.version s3
  let s5 := writeTypeInt32 h.flags s4
  let s6 := writeTypeUInt64 h.properties s5
  let s7 := writeTypeInt64 h.start s6
  let s8 := writeTypeInt64 h.numstates s7
  let s9 := writeTypeInt64 h.numarcs s8
  (true, s9)

/-- The byte sequence `FstHeader::Write` emits on a healthy stream:
magic number first, then the eight fields in the fixed order of the
source. -/
def headerBytes (h : FstHeader) : List Nat :=
  intToBytesLE 4 kFstMagicNumber ++
  (intToBytesLE 4 (h.fsttype.length : Int) ++ h.fsttype) ++
  (intToBytesLE 4 (h.arctype.length : Int) ++ h.arctype) ++
  intToBytesLE 4 h.version ++
  intToBytesLE 4 h.flags ++
  natToBytesLE 8 h.properties ++
  intToBytesLE 8 h.start ++
  intToBytesLE 8 h.numstates ++
  intToBytesLE 8 h.numarcs

theorem readBytes_at (d : List Nat) (p n q : Nat) (bs rest : List Nat)
    (hd : d.drop p = bs ++ rest) (hn : bs.length = n) (hp : p ≤ d.length)
    (hq : q = p + n) :
    readBytes n ⟨d, p, false⟩ = (some bs, ⟨d, q, false⟩) := by
  subst hn hq
  have hlen : (d.drop p).length = d.length - p := List.length_drop p d
  rw [hd] at hlen
  simp only [List.length_append] at hlen
  have hle : p + bs.length ≤ d.length := by omega
  simp only [readBytes, hle, if_pos, Bool.false_eq_true, if_false, hd]
  rw [List.take_left]

theorem drop_chain (d : List Nat) (p q : Nat) (bs rest : List Nat)
    (hd : d.drop p = bs ++ rest) (hp : p ≤ d.length)
    (hq : q = p + bs.length) :
    d.drop q = rest ∧ q ≤ d.length := by
  subst hq
  constructor
  · rw [← List.drop_drop, hd, List.drop_left]
  · have hlen : (d.drop p).length = d.length - p := List.length_drop p d
    rw [hd] at hlen
    simp only [List.length_append] at hlen
    omega

theorem readTypeInt32_at (dflt : Int) (d : List Nat) (p q : Nat) (i : Int)
    (rest : List Nat) (hd : d.drop p = intToBytesLE 4 i ++ rest)
    (hp : p ≤ d.length) (h1 : -(2 ^ 31) ≤ i) (h2 : i < 2 ^ 31)
    (hq : q = p + 4) :
    readTypeInt32 dflt ⟨d, p, false⟩ = (i, ⟨d, q, false⟩) := by
  have hb := readBytes_at d p 4 q (intToBytesLE 4 i) rest hd
    (length_intToBytesLE 4 i) hp hq
  simp only [readTypeInt32, hb, bytesToIntLE_intToBytesLE 4 (by norm_num) i h1 h2]

theorem readTypeInt64_at (dflt : Int) (d : List Nat) (p q : Nat) (i : Int)
    (rest : List Nat) (hd : d.drop p = intToBytesLE 8 i ++ rest)
    (hp : p ≤ d.length) (h1 : -(2 ^ 63) ≤ i) (h2 : i < 2 ^ 63)
    (hq : q = p + 8) :
    readTypeInt64 dflt ⟨d, p, false⟩ = (i, ⟨d, q, false⟩) := by
  have hb := readBytes_at d p 8 q (intToBytesLE 8 i) rest hd
    (length_intToBytesLE 8 i) hp hq
  simp only [readTypeInt64, hb, bytesToIntLE_intToBytesLE 8 (by norm_num) i h1 h2]

theorem readTypeUInt64_at (dflt : Nat) (d : List Nat) (p q : Nat) (n : Nat)
    (rest : List Nat) (hd : d.drop p = natToBytesLE 8 n ++ rest)
    (hp : p ≤ d.length) (h1 : n < 2 ^ 64) (hq : q = p + 8) :
    readTypeUInt64 dflt ⟨d, p, false⟩ = (n, ⟨d, q, false⟩) := by
  have hb := readBytes_at d p 8 q (natToBytesLE 8 n) rest hd
    (length_natToBytesLE 8 n) hp hq
  simp only [readTypeUInt64, hb, bytesToNatLE_natToBytesLE, Nat.mod_eq_of_lt h1]

theorem readTypeString_at (dflt : List Nat) (d : List Nat) (p q : Nat)
    (bs rest : List Nat)
    (hd : d.drop p = intToBytesLE 4 (bs.length : Int) ++ (bs ++ rest))
    (hp : p ≤ d.length) (hlen : bs.length < 2 ^ 31) (hq : q = p + 4 + bs.length) :
    readTypeString dflt ⟨d, p, false⟩ = (bs, ⟨d, q, false⟩) := by
  have h1 : -(2 ^ 31 : Int) ≤ (bs.length : Int) := by omega
  have h2 : (bs.length : Int) < 2 ^ 31 := by exact_mod_cast hlen
  have hlenr := readTypeInt32_at 0 d p (p + 4) (bs.length : Int) (bs ++ rest)
    hd hp h1 h2 rfl
  obtain ⟨hd2, hp2⟩ := drop_chain d p (p + 4) (intToBytesLE 4 (bs.length : Int))
    (bs ++ rest) hd hp (by rw [length_intToBytesLE])
  have hb := readBytes_at d (p + 4) bs.length q bs rest hd2 rfl hp2 (by omega)
  rw [readTypeString, hlenr]
  simp only [Int.toNat_natCast]
  norm_num [hb]

theorem FstHeader.Write_data (h : FstHeader) (os : OStream)
    (hos : os.fail = false) :
    FstHeader.Write h os = (true, ⟨os.data ++ headerBytes h, false⟩) := by
  obtain ⟨d, f⟩ := os
  simp only at hos
  subst hos
  simp [FstHeader.Write, writeTypeInt32, writeTypeInt64, writeTypeUInt64,
    writeTypeString, writeBytes, headerBytes, List.append_assoc]

theorem FstHeader.Write_fail (h : FstHeader) (os : OStream)
    (hos : os.fail = true) :
    FstHeader.Write h os = (true, os) := by
  obtain ⟨d, f⟩ := os
  simp only at hos
  subst hos
  simp [FstHeader.Write, writeTypeInt32, writeTypeInt64, writeTypeUInt64,
    writeTypeString, writeBytes]

theorem FstHeader.Read_success (h0 : FstHeader) (s : IStream) (rw_ : Bool)
    (s1 s2 s3 s4 s5 s6 s7 s8 s9 : IStream)
    (v1 v2 : List Nat) (v3 v4 : Int) (v5 : Nat) (v6 v7 v8 : Int)
    (hm : readTypeInt32 0 s = (kFstMagicNumber, s1))
    (h1 : readTypeString h0.fsttype s1 = (v1, s2))
    (h2 : readTypeString h0.arctype s2 = (v2, s3))
    (h3 : readTypeInt32 h0.version s3 = (v3, s4))
    (h4 : readTypeInt32 h0.flags s4 = (v4, s5))
    (h5 : readTypeUInt64 h0.properties s5 = (v5, s6))
    (h6 : readTypeInt64 h0.start s6 = (v6, s7))
    (h7 : readTypeInt64 h0.numstates s7 = (v7, s8))
    (h8 : readTypeInt64 h0.numarcs s8 = (v8, s9))
    (hfail : s9.fail = false) :
    FstHeader.Read h0 s rw_ =
      (true, ⟨v1, v2, v3, v4, v5, v6, v7, v8⟩,
       if rw_ then seekg (if rw_ then tellg s else 0) s9 else s9) := by
  simp only [FstHeader.Read, hm, h1, h2, h3, h4, h5, h6, h7, h8, hfail]
  simp

theorem istream_eq (s : IStream) (hf : s.fail = false) :
    (⟨s.data, s.pos, false⟩ : IStream) = s := by
  obtain ⟨d, p, f⟩ := s
  simp only at hf
  rw [hf]

theorem readBytes_data_eq (n : Nat) (s : IStream) :
    ((readBytes n s).2).data = s.data := by
  rw [readBytes]
  split
  · rfl
  split
  · rfl
  · rfl

theorem readTypeInt32_data (dflt : Int) (s : IStream) :
    ((readTypeInt32 dflt s).2).data = s.data := by
  have hb := readBytes_data_eq 4 s
  rcases hE : readBytes 4 s with ⟨ob, s2⟩
  rw [hE] at hb
  rw [readTypeInt32, hE]
  cases ob
  · simpa using hb
  · simpa using hb

theorem readTypeInt64_data (dflt : Int) (s : IStream) :
    ((readTypeInt64 dflt s).2).data = s.data := by
  have hb := readBytes_data_eq 8 s
  rcases hE : readBytes 8 s with ⟨ob, s2⟩
  rw [hE] at hb
  rw [readTypeInt64, hE]
  cases ob
  · simpa using hb
  · simpa using hb

theorem readTypeUInt64_data (dflt : Nat) (s : IStream) :
    ((readTypeUInt64 dflt s).2).data = s.data := by
  have hb := readBytes_data_eq 8 s
  rcases hE : readBytes 8 s with ⟨ob, s2⟩
  rw [hE] at hb
  rw [readTypeUInt64, hE]
  cases ob
  · simpa using hb
  · simpa using hb

theorem readTypeString_data (dflt : List Nat) (s : IStream) :
    ((readTypeString dflt s).2).data = s.data := by
  have h1 := readTypeInt32_data 0 s
  simp only [readTypeString]
  split
  · exact h1
  split
  · simpa using h1
  · rcases hE : readBytes (readTypeInt32 0 s).1.toNat (readTypeInt32 0 s).2
      with ⟨ob, s2⟩
    have hb := readBytes_data_eq (readTypeInt32 0 s).1.toNat (readTypeInt32 0 s).2
    rw [hE] at hb
    cases ob
    · simpa using hb.trans h1
    · simpa using hb.trans h1

/-- `FstReadOptions::FileReadMode` (fst.h): `READ` is the in-memory COPY
mode, `MAP` the MEMORY_MAP mode. -/
inductive FileReadMode where
  | READ
  | MAP
deriving DecidableEq, Repr

/-- `FstReadOptions::ReadMode` (fst.cc lines 135-140).  The second
component records whether `LOG(ERROR)` was emitted. -/
def FstReadOptions.ReadMode (mode : String) : FileReadMode × Bool :=
  if mode = "read" then (FileReadMode.READ, false)
  else if mode = "map" then (FileReadMode.MAP, false)
  else (FileReadMode.READ, true)

set_option maxHeartbeats 1000000 in
/-- C1: Header round-trip — for every header record `h` (with each field in
the range of its on-disk fixed-width type), writing `h` with
`FstHeader::Write` and reading the resulting byte stream back with
`FstHeader::Read` succeeds and yields a header whose eight fields equal
those of `h`, whatever values the reader's header held before the call. -/
theorem C1_header_roundtrip (h h0 : FstHeader) (rw_ : Bool)
    (hft : h.fsttype.length < 2 ^ 31) (hat : h.arctype.length < 2 ^ 31)
    (hv1 : -(2 ^ 31) ≤ h.version) (hv2 : h.version < 2 ^ 31)
    (hf1 : -(2 ^ 31) ≤ h.flags) (hf2 : h.flags < 2 ^ 31)
    (hpr : h.properties < 2 ^ 64)
    (hs1 : -(2 ^ 63) ≤ h.start) (hs2 : h.start < 2 ^ 63)
    (hn1 : -(2 ^ 63) ≤ h.numstates) (hn2 : h.numstates < 2 ^ 63)
    (ha1 : -(2 ^ 63) ≤ h.numarcs) (ha2 : h.numarcs < 2 ^ 63) :
    (FstHeader.Read h0
      ⟨(FstHeader.Write h ⟨[], false⟩).2.data, 0, false⟩ rw_).1 = true ∧
    (FstHeader.Read h0
      ⟨(FstHeader.Write h ⟨[], false⟩).2.data, 0, false⟩ rw_).2.1 = h := by
  have hd0 : (headerBytes h).drop 0 =
      intToBytesLE 4 kFstMagicNumber ++
      (intToBytesLE 4 (h.fsttype.length : Int) ++
      (h.fsttype ++
      (intToBytesLE 4 (h.arctype.length : Int) ++
      (h.arctype ++
      (intToBytesLE 4 h.version ++
      (intToBytesLE 4 h.flags ++
      (natToBytesLE 8 h.properties ++
      (intToBytesLE 8 h.start ++
      (intToBytesLE 8 h.numstates ++
      (intToBytesLE 8 h.numarcs ++ ([] : List Nat))))))))))) := by
    rw [List.drop_zero]
    simp [headerBytes, List.append_assoc]
  have hp0 : 0 ≤ (headerBytes h).length := Nat.zero_le _
  have hm := readTypeInt32_at 0 (headerBytes h) 0 4 kFstMagicNumber _ hd0 hp0
    (by norm_num [kFstMagicNumber]) (by norm_num [kFstMagicNumber]) (by omega)
  obtain ⟨hd1, hp1⟩ := drop_chain (headerBytes h) 0 4
    (intToBytesLE 4 kFstMagicNumber) _ hd0 hp0
    (by first | omega | (simp only [length_intToBytesLE, length_natToBytesLE] <;> omega))
  have hr1 := readTypeString_at h0.fsttype (headerBytes h) 4
    (8 + h.fsttype.length) h.fsttype _ hd1 hp1 hft (by omega)
  obtain ⟨hd2a, hp2a⟩ := drop_chain (headerBytes h) 4 8
    (intToBytesLE 4 (h.fsttype.length : Int)) _ hd1 hp1
    (by first | omega | (simp only [length_intToBytesLE, length_natToBytesLE] <;> omega))
  obtain ⟨hd2b, hp2b⟩ := drop_chain (headerBytes h) 8 (8 + h.fsttype.length)
    h.fsttype _ hd2a hp2a
    (by first | omega | (simp only [length_intToBytesLE, length_natToBytesLE] <;> omega))
  have hr2 := readTypeString_at h0.arctype (headerBytes h)
    (8 + h.fsttype.length) (12 + h.fsttype.length + h.arctype.length)
    h.arctype _ hd2b hp2b hat (by omega)
  obtain ⟨hd3a, hp3a⟩ := drop_chain (headerBytes h) (8 + h.fsttype.length)
    (12 + h.fsttype.length) (intToBytesLE 4 (h.arctype.length : Int)) _
    hd2b hp2b
    (by first | omega | (simp only [length_intToBytesLE, length_natToBytesLE] <;> omega))
  obtain ⟨hd3b, hp3b⟩ := drop_chain (headerBytes h) (12 + h.fsttype.length)
    (12 + h.fsttype.length + h.arctype.length) h.arctype _ hd3a hp3a
    (by first | omega | (simp only [length_intToBytesLE, length_natToBytesLE] <;> omega))
  have hr3 := readTypeInt32_at h0.version (headerBytes h)
    (12 + h.fsttype.length + h.arctype.length)
    (16 + h.fsttype.length + h.arctype.length) h.version _ hd3b hp3b
    hv1 hv2 (by omega)
  obtain ⟨hd4, hp4⟩ := drop_chain (headerBytes h)
    (12 + h.fsttype.length + h.arctype.length)
    (16 + h.fsttype.length + h.arctype.length) (intToBytesLE 4 h.version) _
    hd3b hp3b
    (by first | omega | (simp only [length_intToBytesLE, length_natToBytesLE] <;> omega))
  have hr4 := readTypeInt32_at h0.flags (headerBytes h)
    (16 + h.fsttype.length + h.arctype.length)
    (20 + h.fsttype.length + h.arctype.length) h.flags _ hd4 hp4
    hf1 hf2 (by omega)
  obtain ⟨hd5, hp5⟩ := drop_chain (headerBytes h)
    (16 + h.fsttype.length + h.arctype.length)
    (20 + h.fsttype.length + h.arctype.length) (intToBytesLE 4 h.flags) _
    hd4 hp4
    (by first | omega | (simp only [length_intToBytesLE, length_natToBytesLE] <;> omega))
  have hr5 := readTypeUInt64_at h0.properties (headerBytes h)
    (20 + h.fsttype.length + h.arctype.length)
    (28 + h.fsttype.length + h.arctype.length) h.properties _ hd5 hp5
    hpr (by omega)
  obtain ⟨hd6, hp6⟩ := drop_chain (headerBytes h)
    (20 + h.fsttype.length + h.arctype.length)
    (28 + h.fsttype.length + h.arctype.length) (natToBytesLE 8 h.properties) _
    hd5 hp5
    (by first | omega | (simp only [length_intToBytesLE, length_natToBytesLE] <;> omega))
  have hr6 := readTypeInt64_at h0.start (headerBytes h)
    (28 + h.fsttype.length + h.arctype.length)
    (36 + h.fsttype.length + h.arctype.length) h.start _ hd6 hp6
    hs1 hs2 (by omega)
  obtain ⟨hd7, hp7⟩ := drop_chain (headerBytes h)
    (28 + h.fsttype.length + h.arctype.length)
    (36 + h.fsttype.length + h.arctype.length) (intToBytesLE 8 h.start) _
    hd6 hp6
    (by first | omega | (simp only [length_intToBytesLE, length_natToBytesLE] <;> omega))
  have hr7 := readTypeInt64_at h0.numstates (headerBytes h)
    (36 + h.fsttype.length + h.arctype.length)
    (44 + h.fsttype.length + h.arctype.length) h.numstates _ hd7 hp7
    hn1 hn2 (by omega)
  obtain ⟨hd8, hp8⟩ := drop_chain (headerBytes h)
    (36 + h.fsttype.length + h.arctype.length)
    (44 + h.fsttype.length + h.arctype.length) (intToBytesLE 8 h.numstates) _
    hd7 hp7
    (by first | omega | (simp only [length_intToBytesLE, length_natToBytesLE] <;> omega))
  have hr8 := readTypeInt64_at h0.numarcs (headerBytes h)
    (44 + h.fsttype.length + h.arctype.length)
    (52 + h.fsttype.length + h.arctype.length) h.numarcs _ hd8 hp8
    ha1 ha2 (by omega)
  have hW : (FstHeader.Write h ⟨[], false⟩).2.data = headerBytes h := by
    rw [FstHeader.Write_data h ⟨[], false⟩ rfl]
    exact List.nil_append _
  rw [hW]
  rw [FstHeader.Read_success h0 ⟨headerBytes h, 0, false⟩ rw_ _ _ _ _ _ _ _ _ _
    _ _ _ _ _ _ _ _ hm hr1 hr2 hr3 hr4 hr5 hr6 hr7 hr8 rfl]
  exact ⟨rfl, rfl⟩

/-- A concrete all-zero header used by witnesses. -/
def hdrZero : FstHeader := ⟨[], [], 0, 0, 0, 0, 0, 0⟩

/-- A concrete nontrivial header used by witnesses. -/
def hdrEx : FstHeader := ⟨[118], [97, 98], 7, -3, 5, -1, 2, 3⟩

/-- C1 witness: a concrete nontrivial header (nonempty type strings,
negative flags and start) written to a fresh stream reads back equal. -/
theorem C1_header_roundtrip_witness :
    (FstHeader.Read hdrZero
      ⟨(FstHeader.Write hdrEx ⟨[], false⟩).2.data, 0, false⟩ false).1 = true ∧
    (FstHeader.Read hdrZero
      ⟨(FstHeader.Write hdrEx ⟨[], false⟩).2.data, 0, false⟩ false).2.1 = hdrEx :=
  C1_header_roundtrip hdrEx hdrZero false (by decide) (by decide)
    (by decide) (by decide) (by decide) (by decide) (by decide)
    (by decide) (by decide) (by decide) (by decide) (by decide) (by decide)

/-- C9: if the leading magic number does not match the sentinel (the code's
own test `magic_number != kFstMagicNumber`), `FstHeader::Read` returns
failure and leaves all eight stored header fields unmodified. -/
theorem C9_bad_magic_preserves_fields (h : FstHeader) (s : IStream)
    (rw_ : Bool) (hmagic : (readTypeInt32 0 s).1 ≠ kFstMagicNumber) :
    (FstHeader.Read h s rw_).1 = false ∧ (FstHeader.Read h s rw_).2.1 = h := by
  simp only [FstHeader.Read]
  rw [if_pos hmagic]
  exact ⟨rfl, rfl⟩

/-- C9 witness: a stream whose first four bytes decode to a non-sentinel
value leaves a concrete header's fields untouched. -/
theorem C9_bad_magic_preserves_fields_witness :
    (FstHeader.Read ⟨[3], [], 1, 2, 3, 4, 5, 6⟩
      ⟨[1, 2, 3, 4], 0, false⟩ true).1 = false ∧
    (FstHeader.Read ⟨[3], [], 1, 2, 3, 4, 5, 6⟩
      ⟨[1, 2, 3, 4], 0, false⟩ true).2.1 = ⟨[3], [], 1, 2, 3, 4, 5, 6⟩ :=
  C9_bad_magic_preserves_fields ⟨[3], [], 1, 2, 3, 4, 5, 6⟩
    ⟨[1, 2, 3, 4], 0, false⟩ true (by decide)

/-- C4: with rewind requested, (a) if the magic number is read in full but
does not match the sentinel, `FstHeader::Read` signals failure by its
return value (no fatal condition — the function is total) and restores the
stream exactly to its entry state; (b) whenever `Read` succeeds, the
returned stream equals the entry stream (position restored so the header
can be re-read). -/
theorem C4_read_rewind_restores_position (h : FstHeader) (s : IStream)
    (hfail : s.fail = false) :
    (s.pos + 4 ≤ s.data.length →
      bytesToIntLE 4 ((s.data.drop s.pos).take 4) ≠ kFstMagicNumber →
      FstHeader.Read h s true = (false, h, s)) ∧
    ((FstHeader.Read h s true).1 = true → (FstHeader.Read h s true).2.2 = s) := by
  constructor
  · intro h4 hne
    have hbytes : readBytes 4 s =
        (some ((s.data.drop s.pos).take 4), ⟨s.data, s.pos + 4, false⟩) := by
      rw [readBytes, if_neg (by simp [hfail]), if_pos h4, hfail]
    have hm : readTypeInt32 0 s =
        (bytesToIntLE 4 ((s.data.drop s.pos).take 4),
         ⟨s.data, s.pos + 4, false⟩) := by
      simp only [readTypeInt32, hbytes]
    have hnn : ¬ ((s.pos : Int) < 0) := by omega
    simp only [FstHeader.Read, hm]
    rw [if_pos hne]
    simp [tellg, seekg, hfail, hnn, Int.toNat_natCast, istream_eq s hfail]
  · intro htrue
    rcases hEm : readTypeInt32 0 s with ⟨mv, s1⟩
    rcases hE1 : readTypeString h.fsttype s1 with ⟨v1, s2⟩
    rcases hE2 : readTypeString h.arctype s2 with ⟨v2, s3⟩
    rcases hE3 : readTypeInt32 h.version s3 with ⟨v3, s4⟩
    rcases hE4 : readTypeInt32 h.flags s4 with ⟨v4, s5⟩
    rcases hE5 : readTypeUInt64 h.properties s5 with ⟨v5, s6⟩
    rcases hE6 : readTypeInt64 h.start s6 with ⟨v6, s7⟩
    rcases hE7 : readTypeInt64 h.numstates s7 with ⟨v7, s8⟩
    rcases hE8 : readTypeInt64 h.numarcs s8 with ⟨v8, s9⟩
    simp only [FstHeader.Read, hEm, hE1, hE2, hE3, hE4, hE5, hE6, hE7, hE8]
      at htrue ⊢
    have d1 : s1.data = s.data := by
      have t := readTypeInt32_data 0 s; rw [hEm] at t; exact t
    have d2 : s2.data = s1.data := by
      have t := readTypeString_data h.fsttype s1; rw [hE1] at t; exact t
    have d3 : s3.data = s2.data := by
      have t := readTypeString_data h.arctype s2; rw [hE2] at t; exact t
    have d4 : s4.data = s3.data := by
      have t := readTypeInt32_data h.version s3; rw [hE3] at t; exact t
    have d5 : s5.data = s4.data := by
      have t := readTypeInt32_data h.flags s4; rw [hE4] at t; exact t
    have d6 : s6.data = s5.data := by
      have t := readTypeUInt64_data h.properties s5; rw [hE5] at t; exact t
    have d7 : s7.data = s6.data := by
      have t := readTypeInt64_data h.start s6; rw [hE6] at t; exact t
    have d8 : s8.data = s7.data := by
      have t := readTypeInt64_data h.numstates s7; rw [hE7] at t; exact t
    have d9 : s9.data = s.data := by
      have t := readTypeInt64_data h.numarcs s8; rw [hE8] at t
      rw [t, d8, d7, d6, d5, d4, d3, d2, d1]
    by_cases hmg : mv ≠ kFstMagicNumber
    · rw [if_pos hmg] at htrue
      simp at htrue
    · rw [if_neg hmg] at htrue ⊢
      by_cases h9 : s9.fail = true
      · rw [if_pos h9] at htrue
        simp at htrue
      · rw [if_neg h9] at htrue ⊢
        have h9f : s9.fail = false := by simpa using h9
        have hnn : ¬ ((s.pos : Int) < 0) := by omega
        simp [tellg, seekg, hfail, hnn, h9f, Int.toNat_natCast, d9,
          istream_eq s hfail]

/-- C4 witness: a wrong-magic stream is returned untouched, and a
successful read of a freshly written header restores the entry position. -/
theorem C4_read_rewind_restores_position_witness :
    FstHeader.Read hdrZero ⟨[0, 0, 0, 0], 0, false⟩ true =
      (false, hdrZero, ⟨[0, 0, 0, 0], 0, false⟩) ∧
    (FstHeader.Read hdrZero
      ⟨(FstHeader.Write hdrEx ⟨[], false⟩).2.data, 0, false⟩ true).2.2 =
      ⟨(FstHeader.Write hdrEx ⟨[], false⟩).2.data, 0, false⟩ :=
  ⟨(C4_read_rewind_restores_position hdrZero ⟨[0, 0, 0, 0], 0, false⟩ rfl).1
      (by decide) (by decide),
   (C4_read_rewind_restores_position hdrZero
      ⟨(FstHeader.Write hdrEx ⟨[], false⟩).2.data, 0, false⟩ rfl).2
      (by decide)⟩

/-- C2 counterexample: a stream holding exactly the four magic bytes has a
matching magic number, yet `FstHeader::Read` with rewind requested returns
failure with the stream left failed at position 4 — the entry position 0 is
NOT restored, contradicting the claim. -/
theorem C2_counterexample :
    (readTypeInt32 0 ⟨intToBytesLE 4 kFstMagicNumber, 0, false⟩).1 =
      kFstMagicNumber ∧
    (FstHeader.Read hdrZero
      ⟨intToBytesLE 4 kFstMagicNumber, 0, false⟩ true).1 = false ∧
    (FstHeader.Read hdrZero
      ⟨intToBytesLE 4 kFstMagicNumber, 0, false⟩ true).2.2.pos ≠ 0 ∧
    (FstHeader.Read hdrZero
      ⟨intToBytesLE 4 kFstMagicNumber, 0, false⟩ true).2.2.fail = true := by
  decide

/-- C2 (amended): when the magic number matches but a later field read
fails, `FstHeader::Read` returns failure, and it does not rewind: the
result is identical with or without a rewind request (the stream is left in
its failed state, its position not restored). -/
theorem C2_read_failed_no_rewind (h : FstHeader) (s : IStream)
    (hfail : s.fail = false)
    (hmagic : (readTypeInt32 0 s).1 = kFstMagicNumber)
    (hbad : (FstHeader.Read h s true).2.2.fail = true) :
    (FstHeader.Read h s true).1 = false ∧
    FstHeader.Read h s true = FstHeader.Read h s false := by
  rcases hEm : readTypeInt32 0 s with ⟨mv, s1⟩
  rcases hE1 : readTypeString h.fsttype s1 with ⟨v1, s2⟩
  rcases hE2 : readTypeString h.arctype s2 with ⟨v2, s3⟩
  rcases hE3 : readTypeInt32 h.version s3 with ⟨v3, s4⟩
  rcases hE4 : readTypeInt32 h.flags s4 with ⟨v4, s5⟩
  rcases hE5 : readTypeUInt64 h.properties s5 with ⟨v5, s6⟩
  rcases hE6 : readTypeInt64 h.start s6 with ⟨v6, s7⟩
  rcases hE7 : readTypeInt64 h.numstates s7 with ⟨v7, s8⟩
  rcases hE8 : readTypeInt64 h.numarcs s8 with ⟨v8, s9⟩
  rw [hEm] at hmagic
  simp only at hmagic
  simp only [FstHeader.Read, hEm, hE1, hE2, hE3, hE4, hE5, hE6, hE7, hE8]
    at hbad ⊢
  have hnot : ¬ (mv ≠ kFstMagicNumber) := by simp [hmagic]
  simp only [if_neg hnot] at hbad ⊢
  by_cases h9 : s9.fail = true
  · simp only [if_pos h9]
    simp
  · exfalso
    rw [if_neg h9] at hbad
    have h9f : s9.fail = false := by simpa using h9
    have hnn : ¬ ((s.pos : Int) < 0) := by omega
    simp [tellg, seekg, hfail, hnn, h9f] at hbad

/-- C2 witness: the magic-only stream satisfies the amended claim's
hypotheses, and the rewind request indeed has no effect on the result. -/
theorem C2_read_failed_no_rewind_witness :
    (FstHeader.Read hdrZero
      ⟨intToBytesLE 4 kFstMagicNumber, 0, false⟩ true).1 = false ∧
    FstHeader.Read hdrZero ⟨intToBytesLE 4 kFstMagicNumber, 0, false⟩ true =
      FstHeader.Read hdrZero ⟨intToBytesLE 4 kFstMagicNumber, 0, false⟩ false :=
  C2_read_failed_no_rewind hdrZero
    ⟨intToBytesLE 4 kFstMagicNumber, 0, false⟩ rfl (by decide) (by decide)

/-- C5 counterexample: on a faulted output stream, `FstHeader::Write` still
returns `true` — it does not report failure, contradicting the claim that a
stream fault yields failure. -/
theorem C5_counterexample :
    (⟨[], true⟩ : OStream).fail = true ∧
    (FstHeader.Write hdrEx ⟨[], true⟩).1 = true := by
  decide

/-- C5 (amended): `FstHeader::Write` emits the magic number first and then
the eight fields in the same fixed order `Read` consumes them (on a healthy
stream the appended bytes are exactly `headerBytes`), and its boolean
result is `true` unconditionally — even when the underlying stream has
faulted, in which case nothing is written but success is still returned. -/
theorem C5_write_order_and_result (h : FstHeader) (os : OStream) :
    (FstHeader.Write h os).1 = true ∧
    (os.fail = false →
      (FstHeader.Write h os).2 = ⟨os.data ++ headerBytes h, false⟩) ∧
    (os.fail = true → (FstHeader.Write h os).2 = os) := by
  refine ⟨?_, ?_, ?_⟩
  · by_cases hf : os.fail = true
    · rw [FstHeader.Write_fail h os hf]
    · rw [FstHeader.Write_data h os (by simpa using hf)]
  · intro hf
    rw [FstHeader.Write_data h os hf]
  · intro hf
    rw [FstHeader.Write_fail h os hf]

/-- C5 witness: a healthy stream receives exactly the header bytes; a
faulted stream is unchanged; both report success. -/
theorem C5_write_order_and_result_witness :
    (FstHeader.Write hdrEx ⟨[9], false⟩).1 = true ∧
    (FstHeader.Write hdrEx ⟨[9], false⟩).2 = ⟨[9] ++ headerBytes hdrEx, false⟩ ∧
    (FstHeader.Write hdrEx ⟨[9], true⟩).2 = ⟨[9], true⟩ :=
  ⟨(C5_write_order_and_result hdrEx ⟨[9], false⟩).1,
   (C5_write_order_and_result hdrEx ⟨[9], false⟩).2.1 rfl,
   (C5_write_order_and_result hdrEx ⟨[9], true⟩).2.2 rfl⟩

/-- C7: `FstReadOptions::ReadMode` maps "read" to READ (COPY) and "map" to
MAP (MEMORY_MAP) without logging, and every other string — e.g. "bogus" —
logs an error and yields READ; the function is total, it never fails. -/
theorem C7_read_mode (s : String) (h1 : s ≠ "read") (h2 : s ≠ "map") :
    FstReadOptions.ReadMode "read" = (FileReadMode.READ, false) ∧
    FstReadOptions.ReadMode "map" = (FileReadMode.MAP, false) ∧
    FstReadOptions.ReadMode "bogus" = (FileReadMode.READ, true) ∧
    FstReadOptions.ReadMode s = (FileReadMode.READ, true) := by
  refine ⟨by decide, by decide, by decide, ?_⟩
  simp [FstReadOptions.ReadMode, h1, h2]

/-- C7 witness: an arbitrary unknown mode string falls back to READ with an
error logged. -/
theorem C7_read_mode_witness :
    FstReadOptions.ReadMode "bogus" = (FileReadMode.READ, true) ∧
    FstReadOptions.ReadMode "xyz" = (FileReadMode.READ, true) :=
  ⟨(C7_read_mode "xyz" (by decide) (by decide)).2.2.1,
   (C7_read_mode "xyz" (by decide) (by decide)).2.2.2⟩

/-- Modelled from the spec: a type-erased automaton handle (`FstClass`,
spec section 4.4).  Only the capabilities the two CLI tools consult are
represented: the concrete-encoding name (`FstType()`) and the result of the
`Properties(kMutable, false)` query; `id` distinguishes physical handles. -/
structure FstClass where
  id : Nat
  fstType : String
  isMutable : Bool
deriving DecidableEq, Repr

/-- Modelled from the spec: the external collaborators of the convert tool
(`FstClass::Read`, null on failure; `script::Convert`, null on unknown
target type, section 4.5; `Write`, boolean result, section 4.4).  The tool
sources under src only call these. -/
structure ConvertWorld where
  readResult : Option FstClass
  convert : FstClass → String → Option FstClass
  writeOk : FstClass → Bool

/-- Observable outcome of running the convert tool's `main`:
the process exit code, whether `s::Convert` was invoked, which handle was
passed to `Write` (if reached), and the ignored boolean `Write` returned. -/
structure ConvertOutcome where
  exitCode : Nat
  convertInvoked : Bool
  written : Option FstClass
  writeResult : Option Bool
deriving DecidableEq, Repr

/-- `main` of fstconvert.cc (lines 27-59), from the `argc > 3` usage check
on: read the input (exit 1 on null), convert only when the input's type
differs from the requested `--fst_type` (exit 1 on null), then write —
discarding `Write`'s result — and return 0. -/
def fstconvertMain (argc : Nat) (w : ConvertWorld) (fst_type : String) :
    ConvertOutcome :=
  if argc > 3 then ⟨1, false, none, none⟩
  else
    match w.readResult with
    | none => ⟨1, false, none, none⟩
    | some ifst =>
      if ifst.fstType ≠ fst_type then
        match w.convert ifst fst_type with
        | none => ⟨1, true, none, none⟩
        | some ofst => ⟨0, true, some ofst, some (w.writeOk ofst)⟩
      else ⟨0, false, some ifst, some (w.writeOk ifst)⟩

/-- Modelled from the spec: the external collaborators of the topological
sort tool (`FstClass::Read`; `VectorFstClass` copy construction,
section 4.4; `TopSort`'s acyclicity verdict, section 4.6; `Write`). -/
structure TopSortWorld where
  readResult : Option FstClass
  vectorCopy : FstClass → FstClass
  topSortAcyclic : FstClass → Bool
  writeOk : FstClass → Bool

/-- Observable outcome of running the topological-sort tool's `main`:
exit code, the mutable handle `TopSort` ran on and `Write` received,
whether the cyclic-input warning was logged, whether the original input
handle was deleted (replaced by a vector copy), and the ignored boolean
`Write` returned. -/
structure TopSortOutcome where
  exitCode : Nat
  sorted : Option FstClass
  warnedCyclic : Bool
  deletedInput : Bool
  writeResult : Option Bool
deriving DecidableEq, Repr

/-- `main` of fsttopsort.cc (lines 85-122), from the `argc > 3` usage check
on: read the input (exit 1 on null); if the handle has the kMutable
property, sort it in place, otherwise sort a fresh `VectorFstClass` copy
and delete the original; log a warning when `TopSort` reports a cycle;
write the result regardless and return 0. -/
def fsttopsortMain (argc : Nat) (w : TopSortWorld) : TopSortOutcome :=
  if argc > 3 then ⟨1, none, false, false, none⟩
  else
    match w.readResult with
    | none => ⟨1, none, false, false, none⟩
    | some ifst =>
      let ofst := if ifst.isMutable then ifst else w.vectorCopy ifst
      let acyclic := w.topSortAcyclic ofst
      ⟨0, some ofst, !acyclic, !ifst.isMutable, some (w.writeOk ofst)⟩

/-- C3 counterexample: with a successful read whose type already matches,
but a failing write, the convert tool's exit code is 0, not 1: the result
of `ofst->Write(out_name)` is discarded (fstconvert.cc lines 56-58). -/
theorem C3_counterexample :
    (fstconvertMain 1
      ⟨some ⟨0, "vector", true⟩, fun _ _ => none, fun _ => false⟩
      "vector").writeResult = some false ∧
    (fstconvertMain 1
      ⟨some ⟨0, "vector", true⟩, fun _ _ => none, fun _ => false⟩
      "vector").exitCode = 0 := by
  exact ⟨rfl, rfl⟩

/-- C3 (amended): the convert tool exits 0 when the read (and, when the
types differ, the conversion) succeeds, and 1 when the read or the
conversion fails; the boolean result of writing the output is ignored, so
the exit code is 0 regardless of whether the write succeeds. -/
theorem C3_convert_exit_codes (argc : Nat) (w : ConvertWorld) (t : String)
    (hargc : argc ≤ 3) :
    (w.readResult = none → (fstconvertMain argc w t).exitCode = 1) ∧
    (∀ i, w.readResult = some i → i.fstType ≠ t → w.convert i t = none →
      (fstconvertMain argc w t).exitCode = 1) ∧
    (∀ i, w.readResult = some i → i.fstType = t →
      (fstconvertMain argc w t).exitCode = 0 ∧
      (fstconvertMain argc w t).writeResult = some (w.writeOk i)) ∧
    (∀ i o, w.readResult = some i → i.fstType ≠ t → w.convert i t = some o →
      (fstconvertMain argc w t).exitCode = 0 ∧
      (fstconvertMain argc w t).writeResult = some (w.writeOk o)) := by
  have hna : ¬ (argc > 3) := by omega
  refine ⟨?_, ?_, ?_, ?_⟩
  · intro hr
    simp [fstconvertMain, hna, hr]
  · intro i hr hne hc
    simp [fstconvertMain, hna, hr, hne, hc]
  · intro i hr heq
    simp [fstconvertMain, hna, hr, heq]
  · intro i o hr hne hc
    simp [fstconvertMain, hna, hr, hne, hc]

/-- C3 witness: concrete worlds exercising read failure (exit 1), convert
failure (exit 1), and a failing write after a type match (exit 0). -/
theorem C3_convert_exit_codes_witness :
    (fstconvertMain 1 ⟨none, fun _ _ => none, fun _ => true⟩
      "vector").exitCode = 1 ∧
    (fstconvertMain 1 ⟨some ⟨0, "const", true⟩, fun _ _ => none,
      fun _ => false⟩ "vector").exitCode = 1 ∧
    (fstconvertMain 1 ⟨some ⟨0, "vector", true⟩, fun _ _ => none,
      fun _ => false⟩ "vector").exitCode = 0 :=
  ⟨(C3_convert_exit_codes 1 ⟨none, fun _ _ => none, fun _ => true⟩
      "vector" (by omega)).1 rfl,
   (C3_convert_exit_codes 1 ⟨some ⟨0, "const", true⟩, fun _ _ => none,
      fun _ => false⟩ "vector" (by omega)).2.1 ⟨0, "const", true⟩ rfl
      (by decide) rfl,
   ((C3_convert_exit_codes 1 ⟨some ⟨0, "vector", true⟩, fun _ _ => none,
      fun _ => false⟩ "vector" (by omega)).2.2.1 ⟨0, "vector", true⟩ rfl
      rfl).1⟩

/-- C10: when the input automaton's type already equals the requested
output type, `s::Convert` is never invoked and the very handle produced by
`Read` is the one written, unchanged. -/
theorem C10_convert_same_type_no_convert (argc : Nat) (w : ConvertWorld)
    (t : String) (i : FstClass) (hargc : argc ≤ 3)
    (hr : w.readResult = some i) (ht : i.fstType = t) :
    (fstconvertMain argc w t).convertInvoked = false ∧
    (fstconvertMain argc w t).written = some i := by
  have hna : ¬ (argc > 3) := by omega
  simp [fstconvertMain, hna, hr, ht]

/-- C10 witness: a "vector" input with requested type "vector" is written
as-is without conversion. -/
theorem C10_convert_same_type_no_convert_witness :
    (fstconvertMain 2 ⟨some ⟨7, "vector", false⟩,
      fun f _ => some ⟨f.id + 1, "other", true⟩, fun _ => true⟩
      "vector").convertInvoked = false ∧
    (fstconvertMain 2 ⟨some ⟨7, "vector", false⟩,
      fun f _ => some ⟨f.id + 1, "other", true⟩, fun _ => true⟩
      "vector").written = some ⟨7, "vector", false⟩ :=
  C10_convert_same_type_no_convert 2 ⟨some ⟨7, "vector", false⟩,
    fun f _ => some ⟨f.id + 1, "other", true⟩, fun _ => true⟩ "vector"
    ⟨7, "vector", false⟩ (by omega) rfl rfl

/-- C6: the topological-sort tool exits 1 exactly when the read fails;
otherwise it writes the (possibly unmodified) automaton and exits 0, and
when `TopSort` reports a cycle it logs the warning yet still writes and
still exits 0. -/
theorem C6_topsort_exit_codes (argc : Nat) (w : TopSortWorld)
    (hargc : argc ≤ 3) :
    (w.readResult = none → (fsttopsortMain argc w).exitCode = 1) ∧
    (∀ i, w.readResult = some i →
      (fsttopsortMain argc w).exitCode = 0 ∧
      (fsttopsortMain argc w).writeResult =
        some (w.writeOk (if i.isMutable then i else w.vectorCopy i)) ∧
      ((fsttopsortMain argc w).warnedCyclic = true ↔
        w.topSortAcyclic (if i.isMutable then i else w.vectorCopy i) =
          false)) := by
  have hna : ¬ (argc > 3) := by omega
  constructor
  · intro hr
    simp [fsttopsortMain, hna, hr]
  · intro i hr
    simp [fsttopsortMain, hna, hr]

/-- C6 witness: a cyclic mutable input triggers the warning, is still
written, and the tool exits 0; a failed read exits 1. -/
theorem C6_topsort_exit_codes_witness :
    (fsttopsortMain 1 ⟨none, id, fun _ => true, fun _ => true⟩).exitCode = 1 ∧
    (fsttopsortMain 1 ⟨some ⟨4, "vector", true⟩, id, fun _ => false,
      fun _ => true⟩).exitCode = 0 ∧
    ((fsttopsortMain 1 ⟨some ⟨4, "vector", true⟩, id, fun _ => false,
      fun _ => true⟩).warnedCyclic = true ↔
      (fun _ : FstClass => false) (if (⟨4, "vector", true⟩ : FstClass).isMutable
        then ⟨4, "vector", true⟩ else id ⟨4, "vector", true⟩) = false) :=
  ⟨(C6_topsort_exit_codes 1 ⟨none, id, fun _ => true, fun _ => true⟩
      (by omega)).1 rfl,
   ((C6_topsort_exit_codes 1 ⟨some ⟨4, "vector", true⟩, id, fun _ => false,
      fun _ => true⟩ (by omega)).2 ⟨4, "vector", true⟩ rfl).1,
   ((C6_topsort_exit_codes 1 ⟨some ⟨4, "vector", true⟩, id, fun _ => false,
      fun _ => true⟩ (by omega)).2 ⟨4, "vector", true⟩ rfl).2.2⟩

/-- C8: when the read handle lacks the kMutable property the tool builds a
mutable (vector) copy and deletes the original instead of failing, and
sorts the copy; when the handle is already mutable it is sorted in place
(same handle) and the original is kept; either way the tool proceeds
(exit 0). -/
theorem C8_topsort_mutable_handling (argc : Nat) (w : TopSortWorld)
    (i : FstClass) (hargc : argc ≤ 3) (hr : w.readResult = some i) :
    (fsttopsortMain argc w).exitCode = 0 ∧
    (i.isMutable = true →
      (fsttopsortMain argc w).sorted = some i ∧
      (fsttopsortMain argc w).deletedInput = false) ∧
    (i.isMutable = false →
      (fsttopsortMain argc w).sorted = some (w.vectorCopy i) ∧
      (fsttopsortMain argc w).deletedInput = true) := by
  have hna : ¬ (argc > 3) := by omega
  refine ⟨by simp [fsttopsortMain, hna, hr], ?_, ?_⟩
  · intro hm
    simp [fsttopsortMain, hna, hr, hm]
  · intro hm
    simp [fsttopsortMain, hna, hr, hm]

/-- C8 witness: a non-mutable input is replaced by its vector copy (and the
original deleted); a mutable input is sorted in place. -/
theorem C8_topsort_mutable_handling_witness :
    (fsttopsortMain 1 ⟨some ⟨2, "const", false⟩,
      fun f => ⟨f.id + 10, "vector", true⟩, fun _ => true,
      fun _ => true⟩).sorted = some ⟨12, "vector", true⟩ ∧
    (fsttopsortMain 1 ⟨some ⟨2, "const", false⟩,
      fun f => ⟨f.id + 10, "vector", true⟩, fun _ => true,
      fun _ => true⟩).deletedInput = true ∧
    (fsttopsortMain 1 ⟨some ⟨3, "vector", true⟩,
      fun f => ⟨f.id + 10, "vector", true⟩, fun _ => true,
      fun _ => true⟩).sorted = some ⟨3, "vector", true⟩ :=
  ⟨((C8_topsort_mutable_handling 1 ⟨some ⟨2, "const", false⟩,
      fun f => ⟨f.id + 10, "vector", true⟩, fun _ => true, fun _ => true⟩
      ⟨2, "const", false⟩ (by omega) rfl).2.2 rfl).1,
   ((C8_topsort_mutable_handling 1 ⟨some ⟨2, "const", false⟩,
      fun f => ⟨f.id + 10, "vector", true⟩, fun _ => true, fun _ => true⟩
      ⟨2, "const", false⟩ (by omega) rfl).2.2 rfl).2,
   ((C8_topsort_mutable_handling 1 ⟨some ⟨3, "vector", true⟩,
      fun f => ⟨f.id + 10, "vector", true⟩, fun _ => true, fun _ => true⟩
      ⟨3, "vector", true⟩ (by omega) rfl).2.1 rfl).1⟩

end OpenFst
